import Mathlib

/-!
Verification of the Active-Spin lattice Monte-Carlo core: a shallow embedding of
`lvmc/core/lattice.py` (the `ParticleLattice` state engine), `lvmc/core/rates.py`
(the `RatesManager` rate engine) and `lvmc/core/flow.py` (the `Flow` coupling),
together with theorems settling the specification claims.

Conventions of the embedding:
* grids are total functions `ℕ → ℕ → α` indexed `(y, x)` like the `(height, width)`
  tensors of the source; coordinates passed to methods are `(x, y)` like the
  Python signatures;
* a site's state is its orientation vector `(dx, dy) : ℤ × ℤ`;
* Python exceptions (`IndexError`, `ValueError`, `KeyError`) become `Option`
  results (`none` = the call raises);
* particle ids are `Option ℕ` because `transport_particle` pops with default
  `None` and can store the Python value `None` in the tracking dictionaries;
* IEEE-754 float semantics of the rate pipeline (division by zero giving ±∞,
  `exp (-∞) = 0`, `∞ - ∞ = NaN`) are modelled by the `Ext` type of extended
  rationals and the symbolic exponential codomain `ExpVal`.
-/

namespace ActiveSpin

/-- The `Orientation` enum of `lattice.py`: `EMPTY = -1, UP = 0, LEFT = 1, DOWN = 2, RIGHT = 3`. -/
inductive Orientation where
  | UP
  | LEFT
  | DOWN
  | RIGHT
  | EMPTY
deriving DecidableEq, Repr

/-- The integer value of each `Orientation` enum member. -/
def Orientation.value : Orientation → ℤ
  | .UP => 0
  | .LEFT => 1
  | .DOWN => 2
  | .RIGHT => 3
  | .EMPTY => -1

/-- `Orientation(v)`: recover an enum member from its integer value (`none` = Python `ValueError`). -/
def Orientation.ofValue (v : ℤ) : Option Orientation :=
  if v = 0 then some .UP
  else if v = 1 then some .LEFT
  else if v = 2 then some .DOWN
  else if v = 3 then some .RIGHT
  else if v = -1 then some .EMPTY
  else none

/-- The `orientation_deltas` dictionary: screen-style `(dx, dy)` displacement of each orientation. -/
def orientation_deltas : Orientation → ℤ × ℤ
  | .UP => (0, -1)
  | .DOWN => (0, 1)
  | .LEFT => (-1, 0)
  | .RIGHT => (1, 0)
  | .EMPTY => (0, 0)

/-- The `delta_to_orientation` dictionary of `get_particle_orientation`
(`none` = Python `KeyError` on a vector that is not one of the five deltas). -/
def delta_to_orientation (d : ℤ × ℤ) : Option Orientation :=
  if d = (0, -1) then some .UP
  else if d = (0, 1) then some .DOWN
  else if d = (-1, 0) then some .LEFT
  else if d = (1, 0) then some .RIGHT
  else if d = (0, 0) then some .EMPTY
  else none

/-- A Python particle-id value: an `int`, or `None` (which `transport_particle` can produce). -/
abbrev PId := Option ℕ

/-- Periodic wrap `a % n` of a (possibly negative) coordinate, as in Python `%`. -/
def wrap (a : ℤ) (n : ℕ) : ℕ := (a % (n : ℤ)).toNat

/-- Point update of a `(y, x)`-indexed grid (an in-place tensor write `t[y, x] = v`). -/
def upd2 {α : Type} (f : ℕ → ℕ → α) (y x : ℕ) (v : α) : ℕ → ℕ → α :=
  fun j i => if j = y ∧ i = x then v else f j i

/-- Dictionary write `d[k] = v`. -/
def updMap {α β : Type} [DecidableEq α] (f : α → Option β) (k : α) (v : β) : α → Option β :=
  fun a => if a = k then some v else f a

/-- Dictionary key removal (the effect of `d.pop(k)` on the dictionary). -/
def delMap {α β : Type} [DecidableEq α] (f : α → Option β) (k : α) : α → Option β :=
  fun a => if a = k then none else f a

/-- The `ParticleLattice` state: orientation-vector grid, obstacle and sink masks,
the mirror maps `orientation_map`/`occupancy_map`, and the particle-identity
dictionaries `id_to_position` / `position_to_particle_id`. -/
structure ParticleLattice where
  width : ℕ
  height : ℕ
  particles : ℕ → ℕ → ℤ × ℤ
  obstacles : ℕ → ℕ → Bool
  sinks : ℕ → ℕ → Bool
  orientation_map : ℕ → ℕ → Option Orientation
  occupancy_map : ℕ → ℕ → Bool
  id_to_position : PId → Option (ℕ × ℕ)
  position_to_particle_id : ℕ × ℕ → Option PId
  next_particle_id : ℕ

/-- `ParticleLattice(width, height)`: the freshly constructed empty lattice. -/
def mkLattice (width height : ℕ) : ParticleLattice where
  width := width
  height := height
  particles := fun _ _ => (0, 0)
  obstacles := fun _ _ => false
  sinks := fun _ _ => false
  orientation_map := fun _ _ => none
  occupancy_map := fun _ _ => false
  id_to_position := fun _ => none
  position_to_particle_id := fun _ => none
  next_particle_id := 0

namespace ParticleLattice

/-- `_validate_coordinates` as a boolean guard: `true` iff `(x, y)` is in bounds. -/
def coords_ok (L : ParticleLattice) (x y : ℕ) : Bool :=
  decide (x < L.width) && decide (y < L.height)

/-- `_is_empty`: no particle at `(x, y)` (the orientation vector is `(0, 0)`). -/
def is_empty_cell (L : ParticleLattice) (x y : ℕ) : Bool :=
  decide (L.particles y x = (0, 0))

/-- `get_particle_orientation`: validates occupancy, then looks the orientation
vector up in `delta_to_orientation`; `none` = `IndexError`/`ValueError`/`KeyError`. -/
def get_particle_orientation (L : ParticleLattice) (x y : ℕ) : Option Orientation :=
  if L.coords_ok x y && !(L.is_empty_cell x y) then
    delta_to_orientation (L.particles y x)
  else none

/-- `_get_target_position`: validates coordinates and occupancy, then adds the
orientation's delta with periodic wraparound modulo width/height. -/
def get_target_position (L : ParticleLattice) (x y : ℕ) (o : Orientation) :
    Option (ℕ × ℕ) :=
  if L.coords_ok x y && !(L.is_empty_cell x y) then
    let d := orientation_deltas o
    some (wrap ((x : ℤ) + d.1) L.width, wrap ((y : ℤ) + d.2) L.height)
  else none

/-- `_update_tracking`: write `id_to_position[id] = (x, y)` and
`position_to_particle_id[(x, y)] = id`. -/
def update_tracking (L : ParticleLattice) (id : PId) (x y : ℕ) : ParticleLattice :=
  { L with
    id_to_position := updMap L.id_to_position id (x, y)
    position_to_particle_id := updMap L.position_to_particle_id (x, y) id }

/-- `remove_particle`: validates coordinates, then clears the orientation vector,
`orientation_map` and `occupancy_map` at `(x, y)`.  The identity dictionaries are
not touched. -/
def remove_particle (L : ParticleLattice) (x y : ℕ) : Option ParticleLattice :=
  if L.coords_ok x y then
    some { L with
      particles := upd2 L.particles y x (0, 0)
      orientation_map := upd2 L.orientation_map y x none
      occupancy_map := upd2 L.occupancy_map y x false }
  else none

/-- `add_particle` with an explicit orientation (the `orientation=None` branch draws
the orientation at random; a caller of this model supplies the drawn value).
Validates availability (in bounds, not an obstacle, empty), then writes the
orientation vector, the mirror maps, and records a fresh particle id. -/
def add_particle (L : ParticleLattice) (x y : ℕ) (o : Orientation) :
    Option ParticleLattice :=
  if L.coords_ok x y && !(L.obstacles y x) && L.is_empty_cell x y then
    let L1 := { L with
      particles := upd2 L.particles y x (orientation_deltas o)
      orientation_map := upd2 L.orientation_map y x (some o)
      occupancy_map := upd2 L.occupancy_map y x true }
    let L2 := L1.update_tracking (some L.next_particle_id) x y
    some { L2 with next_particle_id := L.next_particle_id + 1 }
  else none

/-- `reorient_particle`: overwrite the orientation vector and `orientation_map`
at `(x, y)` (no bounds or occupancy check in the source). -/
def reorient_particle (L : ParticleLattice) (x y : ℕ) (o : Orientation) :
    ParticleLattice :=
  { L with
    particles := upd2 L.particles y x (orientation_deltas o)
    orientation_map := upd2 L.orientation_map y x (some o) }

/-- `move_particle`: validate occupancy, read the particle's own orientation,
compute the wrapped destination; reflect 180° in place if the destination is an
obstacle; otherwise pop the source from `position_to_particle_id` (`KeyError` if
untracked), retrack at the destination, consume the particle if the destination
is a sink, else relocate the orientation vector and update the mirror maps.
Returns the new state together with the Python return value (`[(x, y)]` for the
reflect branch, `[]` for sink consumption, `[(new_x, new_y)]` otherwise). -/
def move_particle (L : ParticleLattice) (x y : ℕ) :
    Option (ParticleLattice × List (ℕ × ℕ)) :=
  if L.coords_ok x y && !(L.is_empty_cell x y) then
    match delta_to_orientation (L.particles y x) with
    | none => none
    | some o =>
      match L.get_target_position x y o with
      | none => none
      | some (nx, ny) =>
        if L.obstacles ny nx then
          match Orientation.ofValue ((o.value + 2) % 4) with
          | none => none
          | some o2 => some (L.reorient_particle x y o2, [(x, y)])
        else
          match L.position_to_particle_id (x, y) with
          | none => none
          | some pid =>
            let L1 := { L with
              position_to_particle_id := delMap L.position_to_particle_id (x, y) }
            let L2 := L1.update_tracking pid nx ny
            if L.sinks ny nx then
              match L2.remove_particle x y with
              | none => none
              | some L3 => some (L3, [])
            else
              let p := L2.particles y x
              let L3 := { L2 with particles := upd2 L2.particles ny nx p }
              let L4 := { L3 with particles := upd2 L3.particles y x (0, 0) }
              let L5 := { L4 with
                orientation_map :=
                  upd2 (upd2 L4.orientation_map y x none) ny nx (some o)
                occupancy_map :=
                  upd2 (upd2 L4.occupancy_map y x false) ny nx true }
              some (L5, [(nx, ny)])
  else none

/-- `transport_particle`: like `move_particle` but with an externally supplied
direction; a blocked destination is a silent no-op returning `[]`; the source is
popped with default `None`; neither `orientation_map` nor `occupancy_map` is
updated on the relocation path (as in the source). -/
def transport_particle (L : ParticleLattice) (x y : ℕ) (d : Orientation) :
    Option (ParticleLattice × List (ℕ × ℕ)) :=
  if L.coords_ok x y && !(L.is_empty_cell x y) then
    match L.get_target_position x y d with
    | none => none
    | some (nx, ny) =>
      if L.obstacles ny nx then some (L, [])
      else
        match delta_to_orientation (L.particles y x) with
        | none => none
        | some _ =>
          let pid : PId := (L.position_to_particle_id (x, y)).getD none
          let L1 := { L with
            position_to_particle_id := delMap L.position_to_particle_id (x, y) }
          let L2 := L1.update_tracking pid nx ny
          if L.sinks ny nx then
            match L2.remove_particle x y with
            | none => none
            | some L3 => some (L3, [])
          else
            let p := L2.particles y x
            let L3 := { L2 with particles := upd2 L2.particles ny nx p }
            let L4 := { L3 with particles := upd2 L3.particles y x (0, 0) }
            some (L4, [(nx, ny)])
  else none

/-- `set_obstacle`: validates coordinates and availability, then marks the cell. -/
def set_obstacle (L : ParticleLattice) (x y : ℕ) : Option ParticleLattice :=
  if L.coords_ok x y && !(L.obstacles y x) && L.is_empty_cell x y then
    some { L with obstacles := upd2 L.obstacles y x true }
  else none

/-- `set_sink`: validates coordinates and availability, then marks the cell. -/
def set_sink (L : ParticleLattice) (x y : ℕ) : Option ParticleLattice :=
  if L.coords_ok x y && !(L.obstacles y x) && L.is_empty_cell x y then
    some { L with sinks := upd2 L.sinks y x true }
  else none

/-- `flip`: negate the orientation vector in place. -/
def flip (L : ParticleLattice) (x y : ℕ) : ParticleLattice :=
  { L with particles := upd2 L.particles y x (-(L.particles y x).1, -(L.particles y x).2) }

end ParticleLattice

/-- The `[[0, 1], [-1, 0]]` matrix used by `rotate`, `compute_rotated_particles`
and `compute_rotate_delta`, as `((row0), (row1))`. -/
def rotation_matrix : (ℤ × ℤ) × (ℤ × ℤ) := ((0, 1), (-1, 0))

/-- Matrix–vector product `M @ p` (as in `torch.matmul(R, self.particles[y, x])`). -/
def matVec (M : (ℤ × ℤ) × (ℤ × ℤ)) (p : ℤ × ℤ) : ℤ × ℤ :=
  (M.1.1 * p.1 + M.1.2 * p.2, M.2.1 * p.1 + M.2.2 * p.2)

/-- Vector–matrix product `p @ M` (as in `torch.matmul(self.particles, R)`,
which applies `M` on the right of each site's row vector). -/
def vecMat (p : ℤ × ℤ) (M : (ℤ × ℤ) × (ℤ × ℤ)) : ℤ × ℤ :=
  (p.1 * M.1.1 + p.2 * M.2.1, p.1 * M.1.2 + p.2 * M.2.2)

/-- Scalar multiple of a 2×2 matrix. -/
def smulM (s : ℤ) (M : (ℤ × ℤ) × (ℤ × ℤ)) : (ℤ × ℤ) × (ℤ × ℤ) :=
  ((s * M.1.1, s * M.1.2), (s * M.2.1, s * M.2.2))

/-- Python `int(b)` of a boolean. -/
def boolInt (b : Bool) : ℤ := if b then 1 else 0

namespace ParticleLattice

/-- `rotate(x, y, cw)`: apply `R = -(2·cw - 1) · [[0, 1], [-1, 0]]` to the
orientation vector at `(x, y)` by `matmul(R, particles[y, x])`. -/
def rotate (L : ParticleLattice) (x y : ℕ) (cw : Bool) : ParticleLattice :=
  let R := smulM (-(2 * boolInt cw - 1)) rotation_matrix
  { L with particles := upd2 L.particles y x (matVec R (L.particles y x)) }

/-- `compute_rotated_particles(cw, mask)`: `matmul(particles, (2·cw - 1)·[[0, 1], [-1, 0]])`,
then `rotated · mask + particles · (1 - mask)` when a mask is given. -/
def compute_rotated_particles (L : ParticleLattice) (cw : Bool)
    (mask : Option (ℕ → ℕ → Bool)) : ℕ → ℕ → ℤ × ℤ :=
  fun j i =>
    let R := smulM (2 * boolInt cw - 1) rotation_matrix
    let r := vecMat (L.particles j i) R
    match mask with
    | none => r
    | some m =>
      let b := boolInt (m j i)
      (r.1 * b + (L.particles j i).1 * (1 - b),
       r.2 * b + (L.particles j i).2 * (1 - b))

/-- `rotate_particles(cw, mask)`: replace the particle grid by the rotated one. -/
def rotate_particles (L : ParticleLattice) (cw : Bool)
    (mask : Option (ℕ → ℕ → Bool)) : ParticleLattice :=
  { L with particles := L.compute_rotated_particles cw mask }

/-- Component `c` of a site's orientation vector (tensor channel access). -/
def comp (v : ℤ × ℤ) (c : ℕ) : ℤ := if c = 0 then v.1 else v.2

/-- The number of obstacle cells, `self.obstacles.sum().item()`. -/
def obstacleCount (L : ParticleLattice) : ℕ :=
  ((Finset.range L.height) ×ˢ (Finset.range L.width)).filter
    (fun p => L.obstacles p.1 p.2) |>.card

/-- The `density` property exactly as computed by the source:
`particles.any(dim=0).sum()` counts `(column, component)` pairs for which some
row has a nonzero entry (the reduction is over the height axis, not the
component axis), divided by `width·height - obstacles.sum()` (or `0` if that
denominator is not positive). -/
def density (L : ParticleLattice) : ℚ :=
  let num_occupied_cells : ℕ :=
    ((Finset.range L.width) ×ˢ (Finset.range 2)).filter
      (fun p => decide (∃ y ∈ Finset.range L.height, comp (L.particles y p.1) p.2 ≠ 0)) |>.card
  let total_cells : ℤ := (L.width * L.height : ℤ) - L.obstacleCount
  if 0 < total_cells then (num_occupied_cells : ℚ) / (total_cells : ℚ) else 0

/-- The `n_particles` property: `particles.abs().sum().item()`. -/
def n_particles (L : ParticleLattice) : ℤ :=
  ∑ y ∈ Finset.range L.height, ∑ x ∈ Finset.range L.width,
    (|(L.particles y x).1| + |(L.particles y x).2|)

/-- The number of occupied cells (sites with a nonzero orientation vector);
this is the "number of occupied cells" the spec's `density`/`n_particles`
sentences speak about. -/
def occupiedCellCount (L : ParticleLattice) : ℕ :=
  ((Finset.range L.height) ×ˢ (Finset.range L.width)).filter
    (fun p => decide (L.particles p.1 p.2 ≠ (0, 0))) |>.card

/-- The `density` the claim states: occupied cells over `(width·height - obstacles)`. -/
def density_per_spec (L : ParticleLattice) : ℚ :=
  let total_cells : ℤ := (L.width * L.height : ℤ) - L.obstacleCount
  if 0 < total_cells then (L.occupiedCellCount : ℚ) / (total_cells : ℚ) else 0

end ParticleLattice

/-- An IEEE-754-style extended rational: a finite value, `+∞`, `-∞`, or `NaN`.
This models the float tensors of the rate pipeline, whose only non-finite values
arise from division by zero and subsequent arithmetic. -/
inductive Ext where
  | fin : ℚ → Ext
  | pinf
  | ninf
  | nan
deriving DecidableEq, Repr

namespace Ext

/-- IEEE negation. -/
def neg : Ext → Ext
  | fin q => fin (-q)
  | pinf => ninf
  | ninf => pinf
  | nan => nan

/-- IEEE addition (`∞ + (-∞) = NaN`; `NaN` propagates). -/
def add : Ext → Ext → Ext
  | nan, _ => nan
  | _, nan => nan
  | fin a, fin b => fin (a + b)
  | fin _, pinf => pinf
  | fin _, ninf => ninf
  | pinf, fin _ => pinf
  | ninf, fin _ => ninf
  | pinf, pinf => pinf
  | ninf, ninf => ninf
  | pinf, ninf => nan
  | ninf, pinf => nan

/-- IEEE subtraction. -/
def sub (a b : Ext) : Ext := a.add b.neg

/-- IEEE multiplication (`0 · ∞ = NaN`; `NaN` propagates). -/
def mul : Ext → Ext → Ext
  | nan, _ => nan
  | _, nan => nan
  | fin a, fin b => fin (a * b)
  | fin a, pinf => if 0 < a then pinf else if a < 0 then ninf else nan
  | fin a, ninf => if 0 < a then ninf else if a < 0 then pinf else nan
  | pinf, fin b => if 0 < b then pinf else if b < 0 then ninf else nan
  | ninf, fin b => if 0 < b then ninf else if b < 0 then pinf else nan
  | pinf, pinf => pinf
  | pinf, ninf => ninf
  | ninf, pinf => ninf
  | ninf, ninf => pinf

/-- IEEE division for the cases the rate pipeline produces (finite divided by
finite, with a positive-zero denominator, plus the propagation cases). -/
def div : Ext → Ext → Ext
  | nan, _ => nan
  | _, nan => nan
  | fin a, fin b =>
    if b ≠ 0 then fin (a / b)
    else if 0 < a then pinf
    else if a < 0 then ninf
    else nan
  | fin _, pinf => fin 0
  | fin _, ninf => fin 0
  | pinf, fin b => if 0 ≤ b then pinf else ninf
  | ninf, fin b => if 0 ≤ b then ninf else pinf
  | pinf, pinf => nan
  | pinf, ninf => nan
  | ninf, pinf => nan
  | ninf, ninf => nan

end Ext

/-- The value of `exp` on an extended float, kept symbolic: `expOf t` stands for
the positive finite real `e^t`, `zero` is `exp (-∞) = 0.0`, `pinf` is
`exp (+∞) = +∞`, and `nan` propagates. -/
inductive ExpVal where
  | expOf : ℚ → ExpVal
  | zero
  | pinf
  | nan
deriving DecidableEq, Repr

/-- `torch.exp` on an extended float. -/
def extExp : Ext → ExpVal
  | .fin q => .expOf q
  | .pinf => .pinf
  | .ninf => .zero
  | .nan => .nan

/-- A rate value that is finite and non-negative (exactly `0`, or a positive
finite exponential). -/
def ExpVal.finiteNonneg : ExpVal → Bool
  | .expOf _ => true
  | .zero => true
  | _ => false

/-- The `EventType` enum of `rates.py`. -/
inductive EventType where
  | FLIP
  | HOP
  | ROTATE
  | ROTATE_NEG
deriving DecidableEq, Repr

namespace RatesManager

open ParticleLattice

/-- The 3×3 neighbour-counting kernel `[[0, 1, 0], [1, 0, 1], [0, 1, 0]]`. -/
def kernel : Fin 3 → Fin 3 → ℤ :=
  ![![0, 1, 0], ![1, 0, 1], ![0, 1, 0]]

/-- `F.pad(..., pad=(1, 1, 1, 1), mode="circular")`: the circularly padded grid,
`padded[j, i] = particles[(j - 1) % height, (i - 1) % width]`. -/
def padded (L : ParticleLattice) (j i : ℕ) : ℤ × ℤ :=
  L.particles (wrap ((j : ℤ) - 1) L.height) (wrap ((i : ℤ) - 1) L.width)

/-- `compute_interaction_forces`: the grouped `conv2d` of the padded particle
grid with `kernel`, one independent channel per vector component. -/
def compute_interaction_forces (L : ParticleLattice) : ℕ → ℕ → ℤ × ℤ :=
  fun y x =>
    (∑ i : Fin 3, ∑ j : Fin 3, kernel i j * (padded L (y + i) (x + j)).1,
     ∑ i : Fin 3, ∑ j : Fin 3, kernel i j * (padded L (y + i) (x + j)).2)

/-- `compute_energies`: `-(interaction_forces · particles)` summed over the
component axis, per site. -/
def compute_energies (L : ParticleLattice) (y x : ℕ) : ℤ :=
  -((compute_interaction_forces L y x).1 * (L.particles y x).1 +
    (compute_interaction_forces L y x).2 * (L.particles y x).2)

/-- `torch.norm` of a site's orientation vector.  Every vector a lattice site
holds is axis-aligned (`(0, 0)`, `(0, ±1)` or `(±1, 0)`), where the Euclidean
norm is exactly the absolute value of the nonzero component; the value for
vectors with two nonzero components (irrational, never produced by the lattice
operations) is irrelevant and set to `0`. -/
def vnorm (v : ℤ × ℤ) : ℚ :=
  if v.2 = 0 then |v.1| else if v.1 = 0 then |v.2| else 0

/-- A vector the lattice operations can store at a site. -/
def isOrientationVec (v : ℤ × ℤ) : Prop :=
  v = (0, 0) ∨ v = (0, -1) ∨ v = (0, 1) ∨ v = (-1, 0) ∨ v = (1, 0)

instance (v : ℤ × ℤ) : Decidable (isOrientationVec v) := by
  unfold isOrientationVec
  infer_instance

/-- Modelled from the spec: `compute_new_positions` (which fills `forward_y` and
`forward_x`) is called by `update_rates` but is missing from the source.  Per the
spec (§4.1 and §4.2 step 4/5) the hop destination of a site is the periodic-wrapped
neighbour in the direction of the site's own orientation vector, so
`(forward_y, forward_x)` at `(y, x)` is `((y + dy) % height, (x + dx) % width)`. -/
def forward_pos (L : ParticleLattice) (y x : ℕ) : ℕ × ℕ :=
  let d := L.particles y x
  (wrap ((y : ℤ) + d.2) L.height, wrap ((x : ℤ) + d.1) L.width)

/-- `compute_occupancy_delta`: `1 / ‖particles‖` per site (IEEE: `+∞` at an
empty site). -/
def occupancy_delta (L : ParticleLattice) (y x : ℕ) : Ext :=
  Ext.div (.fin 1) (.fin (vnorm (L.particles y x)))

/-- `compute_volume_exclusion_delta`: `‖σ_dest‖ / (‖σ_dest‖ - 1)` where `σ_dest`
is the orientation vector at the hop destination (IEEE: `+∞` when the destination
is occupied by a unit vector). -/
def ve_delta (L : ParticleLattice) (y x : ℕ) : Ext :=
  let fp := forward_pos L y x
  let n := vnorm (L.particles fp.1 fp.2)
  Ext.div (.fin n) (.fin (n - 1))

/-- `compute_hop_delta`: `2 · (H_new - E)` where
`H_new = -(F_new · σ) + occupancy_delta + ve_delta` is evaluated against the
destination's interaction force and already contains both correction terms. -/
def compute_hop_delta (L : ParticleLattice) (y x : ℕ) : Ext :=
  let fp := forward_pos L y x
  let Fn := compute_interaction_forces L fp.1 fp.2
  let p := L.particles y x
  let H_new : Ext :=
    ((Ext.fin (-(Fn.1 * p.1 + Fn.2 * p.2))).add (occupancy_delta L y x)).add
      (ve_delta L y x)
  (Ext.fin 2).mul (H_new.sub (Ext.fin (compute_energies L y x)))

/-- `compute_rotate_delta`: `2 · (H_ortho - E) + occupancy_delta` where `H_ortho`
uses the site's orientation multiplied on the right by `[[0, 1], [-1, 0]]`. -/
def compute_rotate_delta (L : ParticleLattice) (y x : ℕ) : Ext :=
  let F := compute_interaction_forces L y x
  let r := vecMat (L.particles y x) rotation_matrix
  let H_ortho : ℤ := -(F.1 * r.1 + F.2 * r.2)
  (Ext.fin (2 * (H_ortho - compute_energies L y x))).add (occupancy_delta L y x)

/-- `compute_delta`: the energy delta of each event type. -/
def compute_delta (L : ParticleLattice) (e : EventType) (y x : ℕ) : Ext :=
  match e with
  | .ROTATE => compute_rotate_delta L y x
  | .HOP => compute_hop_delta L y x
  | .FLIP => Ext.fin (-4 * compute_energies L y x)
  | .ROTATE_NEG =>
    ((compute_rotate_delta L y x).neg).sub (Ext.fin (4 * compute_energies L y x))

/-- `compute_rates`: `exp(-β · Δ)` per event type and site. -/
def compute_rates (L : ParticleLattice) (β : ℚ) (e : EventType) (y x : ℕ) : ExpVal :=
  extExp ((Ext.fin (-β)).mul (compute_delta L e y x))

end RatesManager

/-- Bitwise XOR of two integers in two's complement, as `torch`'s `^` computes it
on integer tensors. -/
def zxor : ℤ → ℤ → ℤ
  | .ofNat a, .ofNat b => .ofNat (a ^^^ b)
  | .ofNat a, .negSucc b => .negSucc (a ^^^ b)
  | .negSucc a, .ofNat b => .negSucc (a ^^^ b)
  | .negSucc a, .negSucc b => .ofNat (a ^^^ b)

/-- One broadcast dimension pair is compatible iff the extents agree or one is `1`. -/
def bdimCompat (a b : ℕ) : Bool := decide (a = b) || decide (a = 1) || decide (b = 1)

/-- PyTorch broadcast compatibility of two rank-3 shapes. -/
def broadcastable3 (a b : ℕ × ℕ × ℕ) : Bool :=
  bdimCompat a.1 b.1 && bdimCompat a.2.1 b.2.1 && bdimCompat a.2.2 b.2.2

/-- The broadcast result shape of two compatible rank-3 shapes. -/
def bshape3 (a b : ℕ × ℕ × ℕ) : ℕ × ℕ × ℕ :=
  (max a.1 b.1, max a.2.1 b.2.1, max a.2.2 b.2.2)

/-- Map an output index back into an operand of shape `s`: a size-1 dimension is
pinned to `0`. -/
def bindex3 (s : ℕ × ℕ × ℕ) (i j k : ℕ) : ℕ × ℕ × ℕ :=
  (if s.1 = 1 then 0 else i, if s.2.1 = 1 then 0 else j, if s.2.2 = 1 then 0 else k)

/-- The `Flow` state of `flow.py`: velocity field, vorticity magnitude, and the
stored vorticity sign mask. -/
structure Flow where
  width : ℕ
  height : ℕ
  velocity_field : Fin 2 → ℕ → ℕ → ℚ
  vorticity_field : ℕ → ℕ → ℚ
  positive_vorts : ℕ → ℕ → Bool

/-- `Flow(width, height)`: zero fields (`positive_vorts` is only created by
`set_vorticity_field`; the zero mask matches `vorticity > 0` of the zero field). -/
def mkFlow (width height : ℕ) : Flow where
  width := width
  height := height
  velocity_field := fun _ _ _ => 0
  vorticity_field := fun _ _ => 0
  positive_vorts := fun _ _ => false

namespace Flow

/-- `set_vorticity_field`: store the absolute value of the field and the
derived sign mask `field > 0`. -/
def set_vorticity_field (f : Flow) (field : ℕ → ℕ → ℚ) : Flow :=
  { f with
    vorticity_field := fun y x => |field y x|
    positive_vorts := fun y x => decide (0 < field y x) }

/-- `compute_tr` exactly as written in the source:
`0.5 * vorticity_field * (positive_vorts * particles.roll(1, dims=0) ^ (~positive_vorts) * particles.roll(-1, dims=0))`.
The sign masks have tensor shape `(height, width)` while the rolled particle
grids have shape `(height, width, 2)`, so every elementwise product broadcasts
the mask shape (aligned on the right as `(1, height, width)`) against
`(height, width, 2)`; the call raises (`none`) whenever those shapes are not
broadcast-compatible, and otherwise produces the broadcast-shaped tensor of
`0.5 · |ω| · (mask-selected XOR of the two vertically rolled particle grids)`. -/
def compute_tr (f : Flow) (L : ParticleLattice) : Option (ℕ → ℕ → ℕ → ℚ) :=
  let h := f.height
  let w := f.width
  let sMask : ℕ × ℕ × ℕ := (1, h, w)
  let sPart : ℕ × ℕ × ℕ := (h, w, 2)
  let sInner := bshape3 sMask sPart
  if broadcastable3 sMask sPart && broadcastable3 sMask sInner then
    some (fun i j k =>
      let roll1 : ℕ → ℕ → ℕ → ℤ := fun y x c =>
        ParticleLattice.comp (L.particles (wrap ((y : ℤ) - 1) h) x) c
      let roll2 : ℕ → ℕ → ℕ → ℤ := fun y x c =>
        ParticleLattice.comp (L.particles (wrap ((y : ℤ) + 1) h) x) c
      let mIdx := bindex3 sMask i j k
      let pIdx := bindex3 sPart i j k
      let m1 : ℤ := boolInt (f.positive_vorts mIdx.2.1 mIdx.2.2) *
        roll1 pIdx.1 pIdx.2.1 pIdx.2.2
      let m2 : ℤ := boolInt (!(f.positive_vorts mIdx.2.1 mIdx.2.2)) *
        roll2 pIdx.1 pIdx.2.1 pIdx.2.2
      let vIdx := bindex3 sMask i j k
      (1 / 2 : ℚ) * f.vorticity_field vIdx.2.1 vIdx.2.2 * (zxor m1 m2 : ℚ))
  else none

end Flow

namespace RatesManager

/-- The HOP energy delta exactly as claim C1 words it:
`2·(H_new − E) + occupancy_delta + volume_exclusion_delta`, with
`H_new = -(F_dest · σ)` and the two correction terms added outside the factor
of 2.  Written from the spec sentence, to be compared with `compute_hop_delta`. -/
def hop_delta_per_claim (L : ParticleLattice) (y x : ℕ) : Ext :=
  let fp := forward_pos L y x
  let Fn := compute_interaction_forces L fp.1 fp.2
  let p := L.particles y x
  ((Ext.fin (2 * ((-(Fn.1 * p.1 + Fn.2 * p.2)) - compute_energies L y x))).add
    (occupancy_delta L y x)).add (ve_delta L y x)

/-- The interaction force as the spec describes it: the vector sum of the
orientation vectors of the four von Neumann neighbours with periodic
wraparound.  Written from the spec sentence, to be compared with
`compute_interaction_forces`. -/
def neighbor_vector_sum (L : ParticleLattice) (y x : ℕ) : ℤ × ℤ :=
  L.particles (wrap ((y : ℤ) - 1) L.height) x +
    L.particles (wrap ((y : ℤ) + 1) L.height) x +
    L.particles y (wrap ((x : ℤ) - 1) L.width) +
    L.particles y (wrap ((x : ℤ) + 1) L.width)

end RatesManager

/-- The 180°-rotated orientation the spec describes: `UP↔DOWN`, `LEFT↔RIGHT`. -/
def opposite_orientation : Orientation → Orientation
  | .UP => .DOWN
  | .DOWN => .UP
  | .LEFT => .RIGHT
  | .RIGHT => .LEFT
  | .EMPTY => .EMPTY

/-- The claim-C2 invariant: the keyset of `position_to_particle_id` is exactly
the set of occupied (in-bounds) sites. -/
def tracksOccupancy (L : ParticleLattice) : Prop :=
  ∀ x y : ℕ, (L.position_to_particle_id (x, y)).isSome = true ↔
    (x < L.width ∧ y < L.height ∧ L.particles y x ≠ (0, 0))

/-- A 3×3 lattice holding a single UP particle at `(x, y) = (1, 1)` (identity
maps are irrelevant to the rate engine, so the grid is given directly). -/
def oneUP33 : ParticleLattice :=
  { mkLattice 3 3 with particles := fun j i => if j = 1 ∧ i = 1 then (0, -1) else (0, 0) }

/-- A 2×2 lattice fully populated with UP particles. -/
def uniformUP22 : ParticleLattice :=
  { mkLattice 2 2 with particles := fun _ _ => (0, -1) }

/-- A 2×2 lattice with UP particles at `(x, y) = (0, 0)` and `(0, 1)` — two
occupied cells in the same column. -/
def columnPair22 : ParticleLattice :=
  { mkLattice 2 2 with particles := fun _ i => if i = 0 then (0, -1) else (0, 0) }

/-- A 3×3 lattice with an UP particle at `(x, y) = (1, 1)` and an obstacle at
`(1, 0)`, the cell the particle faces. -/
def obstacleScenario33 : ParticleLattice :=
  { mkLattice 3 3 with
    particles := fun j i => if j = 1 ∧ i = 1 then (0, -1) else (0, 0)
    obstacles := fun j i => decide (j = 0 ∧ i = 1) }

/-- A 2×2 lattice built by `add_particle(0, 0, RIGHT)` then `add_particle(1, 0, UP)`:
the RIGHT particle at `(0, 0)` faces the occupied cell `(1, 0)`. -/
def c9_start : Option ParticleLattice :=
  ((mkLattice 2 2).add_particle 0 0 .RIGHT).bind fun L => L.add_particle 1 0 .UP

/-- The claim-C2 sink scenario: on a 2×2 lattice, `set_sink(0, 1)`,
`add_particle(0, 0, DOWN)` (particle id 0 facing the sink), then
`move_particle(0, 0)` which consumes the particle. -/
def sinkScenario : Option ParticleLattice :=
  (((mkLattice 2 2).set_sink 0 1).bind fun L => L.add_particle 0 0 .DOWN).bind
    fun L => (L.move_particle 0 0).map Prod.fst

/-- The lattice obtained by `add_particle(0, 0, UP)` on an empty 2×2 lattice. -/
def c2_added : ParticleLattice :=
  (((mkLattice 2 2).add_particle 0 0 .UP).getD (mkLattice 2 2))

/-- The claim-C2 remove scenario: `add_particle(0, 0, UP)` then
`remove_particle(0, 0)` on a 2×2 lattice. -/
def removeScenario : Option ParticleLattice :=
  ((mkLattice 2 2).add_particle 0 0 .UP).bind fun L => L.remove_particle 0 0

/-- A 3×3 flow whose vorticity field has been set to the constant 1. -/
def flow33 : Flow := (mkFlow 3 3).set_vorticity_field fun _ _ => 1

/-! ## Helper lemmas -/

theorem wrap_lt (a : ℤ) (n : ℕ) (hn : 0 < n) : wrap a n < n := by
  unfold wrap
  have h : (0 : ℤ) < (n : ℤ) := by exact_mod_cast hn
  have h1 := Int.emod_nonneg a (ne_of_gt h)
  have h2 := Int.emod_lt_of_pos a h
  omega

theorem wrap_coe (x n : ℕ) (h : x < n) : wrap (x : ℤ) n = x := by
  unfold wrap
  rw [Int.emod_eq_of_lt (by positivity) (by exact_mod_cast h)]
  simp

/-- Multiplying `2 · (((fin a + b) + c) - fin e)` distributes over arbitrary
extended values `b`, `c` exactly as over finite ones. -/
theorem ext_two_mul_distrib (a e : ℚ) (b c : Ext) :
    (Ext.fin 2).mul ((((Ext.fin a).add b).add c).sub (Ext.fin e)) =
      ((Ext.fin (2 * (a - e))).add ((Ext.fin 2).mul b)).add ((Ext.fin 2).mul c) := by
  cases b <;> cases c <;>
    simp [Ext.add, Ext.sub, Ext.neg, Ext.mul] <;> norm_num <;> ring

/-- The occupancy delta at an empty site is `1 / 0 = +∞`. -/
theorem occ_empty (L : ParticleLattice) (y x : ℕ) (h : L.particles y x = (0, 0)) :
    RatesManager.occupancy_delta L y x = .pinf := by
  norm_num [RatesManager.occupancy_delta, RatesManager.vnorm, h, Ext.div]

/-- The occupancy delta at an occupied site (holding a valid orientation vector)
is `1 / 1 = 1`. -/
theorem occ_occupied (L : ParticleLattice) (y x : ℕ)
    (hv : RatesManager.isOrientationVec (L.particles y x))
    (h : L.particles y x ≠ (0, 0)) :
    RatesManager.occupancy_delta L y x = .fin 1 := by
  rcases hv with h0 | h0 | h0 | h0 | h0 <;>
    norm_num [RatesManager.occupancy_delta, RatesManager.vnorm, h0, Ext.div] <;>
    simp [h0] at h

/-- The volume-exclusion delta for an empty hop destination is `0 / (-1) = 0`. -/
theorem ve_empty_dest (L : ParticleLattice) (y x : ℕ)
    (h : L.particles (RatesManager.forward_pos L y x).1
      (RatesManager.forward_pos L y x).2 = (0, 0)) :
    RatesManager.ve_delta L y x = .fin 0 := by
  norm_num [RatesManager.ve_delta, RatesManager.vnorm, h, Ext.div]

/-- The volume-exclusion delta for an occupied hop destination is `1 / 0 = +∞`. -/
theorem ve_occupied_dest (L : ParticleLattice) (y x : ℕ)
    (hv : RatesManager.isOrientationVec
      (L.particles (RatesManager.forward_pos L y x).1 (RatesManager.forward_pos L y x).2))
    (h : L.particles (RatesManager.forward_pos L y x).1
      (RatesManager.forward_pos L y x).2 ≠ (0, 0)) :
    RatesManager.ve_delta L y x = .pinf := by
  rcases hv with h0 | h0 | h0 | h0 | h0 <;>
    norm_num [RatesManager.ve_delta, RatesManager.vnorm, h0, Ext.div] <;>
    simp [h0] at h

/-- For positive `β`, `(-β) · (+∞) = -∞`. -/
theorem negbeta_mul_pinf (β : ℚ) (hβ : 0 < β) : (Ext.fin (-β)).mul .pinf = .ninf := by
  have h1 : ¬(0 < -β) := by linarith
  have h2 : -β < 0 := by linarith
  simp [Ext.mul, h1, h2]

/-- The hop-delta shape with all-finite correction terms evaluates to a finite
rational. -/
theorem hop_form_fin (a qb qc e : ℚ) :
    (Ext.fin 2).mul ((((Ext.fin a).add (Ext.fin qb)).add (Ext.fin qc)).sub (Ext.fin e)) =
      Ext.fin (2 * (a + qb + qc - e)) := by
  simp [Ext.add, Ext.sub, Ext.neg, Ext.mul]
  ring

/-- `Orientation((v + 2) % 4)` is the 180°-rotated orientation, for the four
non-EMPTY orientations. -/
theorem ofValue_opposite (o : Orientation) (h : o ≠ .EMPTY) :
    Orientation.ofValue ((o.value + 2) % 4) = some (opposite_orientation o) := by
  cases o <;> first | decide | exact absurd rfl h

/-- Wrapping one step up from an in-bounds row of a grid of height at least 2
lands on a different row. -/
theorem wrap_sub_one_ne (y h : ℕ) (hy : y < h) (hh : 2 ≤ h) : wrap ((y : ℤ) - 1) h ≠ y := by
  unfold wrap
  rcases Nat.eq_zero_or_pos y with rfl | hpos
  · have e2 : ((0 : ℕ) : ℤ) - 1 = (((h : ℤ) - 1) + (h : ℤ) * (-1)) := by push_cast; ring
    rw [e2, Int.add_mul_emod_self_left, Int.emod_eq_of_lt (by omega) (by omega)]
    omega
  · rw [Int.emod_eq_of_lt (by omega) (by omega)]
    omega

/-- Wrapping one step down from an in-bounds row of a grid of height at least 2
lands on a different row. -/
theorem wrap_add_one_ne (y h : ℕ) (hy : y < h) (hh : 2 ≤ h) : wrap ((y : ℤ) + 1) h ≠ y := by
  unfold wrap
  rcases eq_or_lt_of_le (show y + 1 ≤ h by omega) with heq | hlt
  · rw [show (y : ℤ) + 1 = ((0 : ℤ) + (h : ℤ) * 1) by push_cast; omega,
      Int.add_mul_emod_self_left, Int.emod_eq_of_lt (by omega) (by omega)]
    omega
  · rw [Int.emod_eq_of_lt (by omega) (by omega)]
    omega

theorem wrap_add_zero (y h : ℕ) (hy : y < h) : wrap ((y : ℤ) + 0) h = y := by
  rw [add_zero]
  exact wrap_coe y h hy

/-- A successful `_get_target_position` for a non-EMPTY orientation on a grid of
width and height at least 2 yields an in-bounds destination different from the
source. -/
theorem get_target_data (L : ParticleLattice) (x y nx ny : ℕ) (o : Orientation)
    (hoE : o ≠ .EMPTY) (hw : 2 ≤ L.width) (hh : 2 ≤ L.height)
    (htgt : L.get_target_position x y o = some (nx, ny)) :
    nx < L.width ∧ ny < L.height ∧ ¬(nx = x ∧ ny = y) ∧ x < L.width ∧ y < L.height := by
  unfold ParticleLattice.get_target_position at htgt
  by_cases hg : (L.coords_ok x y && !(L.is_empty_cell x y)) = true
  swap
  · rw [if_neg hg] at htgt
    exact absurd htgt (by simp)
  rw [if_pos hg] at htgt
  have hx : x < L.width ∧ y < L.height := by
    have := (Bool.and_eq_true _ _).mp hg
    constructor <;> [exact of_decide_eq_true ((Bool.and_eq_true _ _).mp this.1).1;
      exact of_decide_eq_true ((Bool.and_eq_true _ _).mp this.1).2]
  obtain ⟨hx, hy⟩ := hx
  simp only [Option.some.injEq, Prod.mk.injEq] at htgt
  obtain ⟨hnx, hny⟩ := htgt
  cases o with
  | EMPTY => exact absurd rfl hoE
  | UP =>
    refine ⟨?_, ?_, ?_, hx, hy⟩ <;>
      simp only [← hnx, ← hny, orientation_deltas] <;>
      first
        | exact lt_of_eq_of_lt (wrap_add_zero x L.width hx) hx
        | exact wrap_lt _ _ (by omega)
        | rintro ⟨h1, h2⟩; exact wrap_sub_one_ne y L.height hy hh (by simpa using h2)
  | DOWN =>
    refine ⟨?_, ?_, ?_, hx, hy⟩ <;>
      simp only [← hnx, ← hny, orientation_deltas] <;>
      first
        | exact lt_of_eq_of_lt (wrap_add_zero x L.width hx) hx
        | exact wrap_lt _ _ (by omega)
        | rintro ⟨h1, h2⟩; exact wrap_add_one_ne y L.height hy hh (by simpa using h2)
  | LEFT =>
    refine ⟨?_, ?_, ?_, hx, hy⟩ <;>
      simp only [← hnx, ← hny, orientation_deltas] <;>
      first
        | exact wrap_lt _ _ (by omega)
        | exact lt_of_eq_of_lt (wrap_add_zero y L.height hy) hy
        | rintro ⟨h1, h2⟩; exact wrap_sub_one_ne x L.width hx hw (by simpa using h1)
  | RIGHT =>
    refine ⟨?_, ?_, ?_, hx, hy⟩ <;>
      simp only [← hnx, ← hny, orientation_deltas] <;>
      first
        | exact wrap_lt _ _ (by omega)
        | exact lt_of_eq_of_lt (wrap_add_zero y L.height hy) hy
        | rintro ⟨h1, h2⟩; exact wrap_add_one_ne x L.width hx hw (by simpa using h1)

/-- Relocating an occupied source to a distinct in-bounds destination (the common
tail of `move_particle` and `transport_particle`) preserves the keyset
invariant: the source key is popped and its cell zeroed, the destination key is
written and its cell filled. -/
theorem tracks_relocate (L L' : ParticleLattice) (hinv : tracksOccupancy L)
    (x y nx ny : ℕ) (pid : PId)
    (hnx : nx < L.width) (hny : ny < L.height)
    (hne : ¬(nx = x ∧ ny = y)) (hocc : L.particles y x ≠ (0, 0))
    (hW : L'.width = L.width) (hH : L'.height = L.height)
    (hP : L'.particles = upd2 (upd2 L.particles ny nx (L.particles y x)) y x (0, 0))
    (hM : L'.position_to_particle_id =
      updMap (delMap L.position_to_particle_id (x, y)) (nx, ny) pid) :
    tracksOccupancy L' := by
  have hocc0 : L.particles y x ≠ 0 := by simpa using hocc
  intro a b
  rw [hW, hH, hP, hM]
  unfold updMap delMap upd2
  by_cases h1 : (a, b) = (nx, ny)
  · rw [Prod.mk.injEq] at h1
    obtain ⟨rfl, rfl⟩ := h1
    have hax : ¬(b = y ∧ a = x) := fun hc => hne ⟨hc.2, hc.1⟩
    simp [hax, hnx, hny, hocc0]
  · by_cases h2 : (a, b) = (x, y)
    · rw [Prod.mk.injEq] at h2
      obtain ⟨rfl, rfl⟩ := h2
      simp [h1]
    · have hax : ¬(b = y ∧ a = x) := by
        rintro ⟨rfl, rfl⟩
        exact h2 rfl
      have hab : ¬(b = ny ∧ a = nx) := by
        rintro ⟨rfl, rfl⟩
        exact h1 rfl
      simpa [h1, h2, hax, hab] using hinv a b

/-- Reorienting an occupied cell (the reflect branch of `move_particle`)
preserves the keyset invariant. -/
theorem tracks_reorient (L : ParticleLattice) (hinv : tracksOccupancy L)
    (x y : ℕ) (o2 : Orientation) (ho2 : o2 ≠ .EMPTY)
    (hocc : L.particles y x ≠ (0, 0)) :
    tracksOccupancy (L.reorient_particle x y o2) := by
  intro a b
  unfold ParticleLattice.reorient_particle upd2
  by_cases hab : (b = y ∧ a = x)
  · obtain ⟨rfl, rfl⟩ := hab
    have hd0 : orientation_deltas o2 ≠ 0 := by
      cases o2 <;> first | decide | exact absurd rfl ho2
    have ho0 : L.particles b a ≠ 0 := by simpa using hocc
    rw [hinv a b]
    simp [hd0, ho0]
  · simpa [hab] using hinv a b

/-- A successful `add_particle` of a non-EMPTY orientation preserves the keyset
invariant. -/
theorem add_preserves_tracking (L : ParticleLattice) (hinv : tracksOccupancy L)
    (x y : ℕ) (o : Orientation) (L' : ParticleLattice) (hoE : o ≠ .EMPTY)
    (hadd : L.add_particle x y o = some L') : tracksOccupancy L' := by
  unfold ParticleLattice.add_particle at hadd
  by_cases hg : (L.coords_ok x y && !(L.obstacles y x) && L.is_empty_cell x y) = true
  swap
  · rw [if_neg hg] at hadd
    exact absurd hadd (by simp)
  rw [if_pos hg] at hadd
  have hb := hg
  simp only [ParticleLattice.coords_ok, ParticleLattice.is_empty_cell, Bool.and_eq_true,
    Bool.not_eq_true', decide_eq_true_eq] at hb
  obtain ⟨⟨⟨hx, hy⟩, -⟩, hemp⟩ := hb
  simp only [ParticleLattice.update_tracking, Option.some.injEq] at hadd
  subst hadd
  intro a b
  unfold updMap upd2
  simp only []
  by_cases hab : (a, b) = (x, y)
  · rw [Prod.mk.injEq] at hab
    obtain ⟨rfl, rfl⟩ := hab
    have hd0 : orientation_deltas o ≠ 0 := by
      cases o <;> first | decide | exact absurd rfl hoE
    simp [hx, hy, hd0]
  · have hax : ¬(b = y ∧ a = x) := by
      rintro ⟨rfl, rfl⟩
      exact hab rfl
    simpa [hab, hax] using hinv a b

/-- A successful `move_particle` that reports a displacement or a reflection
(`r ≠ []`, i.e. the particle was not consumed by a sink) preserves the keyset
invariant on grids of width and height at least 2. -/
theorem move_preserves_tracking (L : ParticleLattice) (hinv : tracksOccupancy L)
    (hw : 2 ≤ L.width) (hh : 2 ≤ L.height) (x y : ℕ) (L' : ParticleLattice)
    (r : List (ℕ × ℕ)) (hmv : L.move_particle x y = some (L', r)) (hr : r ≠ []) :
    tracksOccupancy L' := by
  unfold ParticleLattice.move_particle at hmv
  by_cases hg : (L.coords_ok x y && !(L.is_empty_cell x y)) = true
  swap
  · rw [if_neg hg] at hmv
    exact absurd hmv (by simp)
  rw [if_pos hg] at hmv
  have hb := hg
  simp only [ParticleLattice.coords_ok, ParticleLattice.is_empty_cell, Bool.and_eq_true,
    Bool.not_eq_true', decide_eq_false_iff_not, decide_eq_true_eq] at hb
  obtain ⟨⟨hx, hy⟩, hocc⟩ := hb
  split at hmv
  · exact absurd hmv (by simp)
  rename_i o ho
  have hoE : o ≠ .EMPTY := by
    intro h0
    subst h0
    unfold delta_to_orientation at ho
    split_ifs at ho <;> simp_all
  split at hmv
  · exact absurd hmv (by simp)
  rename_i p nx ny htp
  obtain ⟨hnx, hny, hneq, -, -⟩ := get_target_data L x y nx ny o hoE hw hh htp
  split at hmv
  · rename_i hob
    split at hmv
    · rename_i hnone
      rw [ofValue_opposite o hoE] at hnone
      exact absurd hnone (by simp)
    · rename_i o2 ho2
      rw [ofValue_opposite o hoE] at ho2
      simp only [Option.some.injEq] at ho2
      simp only [Option.some.injEq, Prod.mk.injEq] at hmv
      obtain ⟨hL, -⟩ := hmv
      have hopE : opposite_orientation o ≠ .EMPTY := by
        cases o <;> first | decide | exact absurd rfl hoE
      exact hL ▸ ho2 ▸ tracks_reorient L hinv x y (opposite_orientation o) hopE hocc
  · rename_i hob
    split at hmv
    · rename_i hnone
      have hsome : (L.position_to_particle_id (x, y)).isSome = true :=
        (hinv x y).mpr ⟨hx, hy, hocc⟩
      rw [hnone] at hsome
      exact absurd hsome (by simp)
    · rename_i pid hpid
      split at hmv
      · rename_i hsink
        simp only [ParticleLattice.remove_particle, ParticleLattice.update_tracking,
          ParticleLattice.coords_ok] at hmv
        simp [hx, hy, Option.some.injEq, Prod.mk.injEq] at hmv
        exact absurd hmv.2 hr
      · rename_i hsink
        simp only [Option.some.injEq, Prod.mk.injEq] at hmv
        obtain ⟨hL, -⟩ := hmv
        exact hL ▸ tracks_relocate L _ hinv x y nx ny pid hnx hny hneq hocc rfl rfl rfl rfl

/-- A successful `transport_particle` along a non-EMPTY direction that reports a
displacement (`r ≠ []`: neither blocked by an obstacle nor consumed by a sink)
preserves the keyset invariant on grids of width and height at least 2. -/
theorem transport_preserves_tracking (L : ParticleLattice) (hinv : tracksOccupancy L)
    (hw : 2 ≤ L.width) (hh : 2 ≤ L.height) (x y : ℕ) (d : Orientation)
    (L' : ParticleLattice) (r : List (ℕ × ℕ)) (hdE : d ≠ .EMPTY)
    (hmv : L.transport_particle x y d = some (L', r)) (hr : r ≠ []) :
    tracksOccupancy L' := by
  unfold ParticleLattice.transport_particle at hmv
  by_cases hg : (L.coords_ok x y && !(L.is_empty_cell x y)) = true
  swap
  · rw [if_neg hg] at hmv
    exact absurd hmv (by simp)
  rw [if_pos hg] at hmv
  have hb := hg
  simp only [ParticleLattice.coords_ok, ParticleLattice.is_empty_cell, Bool.and_eq_true,
    Bool.not_eq_true', decide_eq_false_iff_not, decide_eq_true_eq] at hb
  obtain ⟨⟨hx, hy⟩, hocc⟩ := hb
  split at hmv
  · exact absurd hmv (by simp)
  rename_i p nx ny htp
  obtain ⟨hnx, hny, hneq, -, -⟩ := get_target_data L x y nx ny d hdE hw hh htp
  split at hmv
  · rename_i hob
    simp only [Option.some.injEq, Prod.mk.injEq] at hmv
    exact absurd hmv.2.symm hr
  · rename_i hob
    split at hmv
    · exact absurd hmv (by simp)
    rename_i o2 ho2
    split at hmv
    · rename_i hsink
      simp only [ParticleLattice.remove_particle, ParticleLattice.update_tracking,
        ParticleLattice.coords_ok] at hmv
      simp [hx, hy, Option.some.injEq, Prod.mk.injEq] at hmv
      exact absurd hmv.2 hr
    · rename_i hsink
      simp only [Option.some.injEq, Prod.mk.injEq] at hmv
      obtain ⟨hL, -⟩ := hmv
      exact hL ▸ tracks_relocate L _ hinv x y nx ny
        ((L.position_to_particle_id (x, y)).getD none) hnx hny hneq hocc rfl rfl rfl rfl

/-- The convolution of `compute_interaction_forces` evaluates, at every
in-bounds site, to the periodic 4-neighbour vector sum. -/
theorem forces_eq_neighbor_sum (L : ParticleLattice) (y x : ℕ)
    (hy : y < L.height) (hx : x < L.width) :
    RatesManager.compute_interaction_forces L y x =
      RatesManager.neighbor_vector_sum L y x := by
  unfold RatesManager.compute_interaction_forces RatesManager.neighbor_vector_sum
    RatesManager.padded
  simp [Fin.sum_univ_three, RatesManager.kernel]
  push_cast
  ring_nf
  rw [wrap_coe y L.height hy, wrap_coe x L.width hx]
  simp [Prod.ext_iff, Prod.fst_add, Prod.snd_add]
  constructor <;> ring

/-! ## Claim theorems -/

/-- C1 (counterexample): on a 3×3 lattice with a single UP particle at `(1, 1)`,
the engine's HOP delta at that site is `0`, while the claim's formula
`2·(H_new − E) + occupancy_delta + volume_exclusion_delta` evaluates to `-1`:
the code folds the correction terms inside the factor of 2. -/
theorem C1_hop_delta_counterexample :
    RatesManager.compute_hop_delta oneUP33 1 1 = .fin 0 ∧
      RatesManager.hop_delta_per_claim oneUP33 1 1 = .fin (-1) := by
  constructor
  · norm_num [RatesManager.compute_hop_delta, RatesManager.forward_pos,
      RatesManager.compute_interaction_forces, RatesManager.padded,
      RatesManager.compute_energies, RatesManager.occupancy_delta,
      RatesManager.ve_delta, RatesManager.vnorm, RatesManager.kernel, oneUP33,
      mkLattice, wrap, Fin.sum_univ_three, Ext.add, Ext.sub, Ext.neg, Ext.mul,
      Ext.div]
    decide
  · norm_num [RatesManager.hop_delta_per_claim, RatesManager.forward_pos,
      RatesManager.compute_interaction_forces, RatesManager.padded,
      RatesManager.compute_energies, RatesManager.occupancy_delta,
      RatesManager.ve_delta, RatesManager.vnorm, RatesManager.kernel, oneUP33,
      mkLattice, wrap, Fin.sum_univ_three, Ext.add, Ext.sub, Ext.neg, Ext.mul,
      Ext.div]
    norm_num [show Int.toNat 2 = 2 from rfl]

/-- C3 (counterexample): the per-site ROTATE_NEG rate at the empty site
`(y, x) = (2, 2)` of a 3×3 one-particle lattice, with `β = 1`, is `exp (+∞) = +∞`
— not finite, refuting "all per-site rates produced by the rate engine are
finite". -/
theorem C3_rotate_neg_infinite_counterexample :
    RatesManager.compute_rates oneUP33 1 .ROTATE_NEG 2 2 = .pinf ∧
      (RatesManager.compute_rates oneUP33 1 .ROTATE_NEG 2 2).finiteNonneg = false := by
  have h : RatesManager.compute_rates oneUP33 1 .ROTATE_NEG 2 2 = .pinf := by
    norm_num [RatesManager.compute_rates, RatesManager.compute_delta,
      RatesManager.compute_rotate_delta, RatesManager.compute_energies,
      RatesManager.compute_interaction_forces, RatesManager.padded,
      RatesManager.kernel, RatesManager.occupancy_delta, RatesManager.vnorm,
      oneUP33, mkLattice, wrap, Fin.sum_univ_three, Ext.add, Ext.sub, Ext.neg,
      Ext.mul, Ext.div, extExp, vecMat, rotation_matrix]
  exact ⟨h, by rw [h]; rfl⟩

/-- C7: `compute_tr` does not compute reorientation rates on a 3×3 lattice at
all — the elementwise product of the `(3, 3)` vorticity-sign mask with the
rolled `(3, 3, 2)` particle tensor is not broadcast-compatible, so the call
raises a runtime error (`none`). -/
theorem C7_compute_tr_shape_error :
    flow33.compute_tr oneUP33 = none ∧
      flow33.vorticity_field 0 0 = 1 ∧ flow33.positive_vorts 0 0 = true := by
  refine ⟨rfl, by norm_num [flow33, Flow.set_vorticity_field, mkFlow], ?_⟩
  norm_num [flow33, Flow.set_vorticity_field, mkFlow]

/-- C8: on the 2×2 lattice with UP particles at `(0, 0)` and `(0, 1)` (two
occupied cells in one column), `density` returns `1/4` although 2 of the 4
non-obstacle cells are occupied (the claimed value is `1/2`): the occupied-cell
count reduces over the height axis instead of the component axis.
`n_particles` does return the occupied count, 2. -/
theorem C8_density_bug :
    ParticleLattice.density columnPair22 = 1 / 4 ∧
      ParticleLattice.density_per_spec columnPair22 = 1 / 2 ∧
      ParticleLattice.occupiedCellCount columnPair22 = 2 ∧
      ParticleLattice.n_particles columnPair22 = 2 := by
  have h1 : ParticleLattice.density columnPair22 = ((1 : ℕ) : ℚ) / ((4 : ℤ) : ℚ) := rfl
  have h2 : ParticleLattice.density_per_spec columnPair22 =
      ((2 : ℕ) : ℚ) / ((4 : ℤ) : ℚ) := rfl
  refine ⟨by rw [h1]; norm_num, by rw [h2]; norm_num, by decide, by decide⟩

/-- C9: on a 2×2 lattice with a RIGHT particle at `(0, 0)` and an UP particle at
the non-obstacle, non-sink cell `(1, 0)`, `move_particle(0, 0)` succeeds,
overwrites `(1, 0)` with the mover's RIGHT orientation, empties `(0, 0)`, and
drops the occupied-cell count from 2 to 1: the mutation primitives do not
enforce hard-core exclusion. -/
theorem C9_no_exclusion :
    ((c9_start.bind fun L => L.move_particle 0 0).map fun p =>
        (ParticleLattice.occupiedCellCount p.1, p.1.particles 0 1,
          p.1.particles 0 0, p.2)) =
      some (1, (1, 0), (0, 0), [(1, 0)]) ∧
      (c9_start.map fun L =>
        (ParticleLattice.occupiedCellCount L, L.obstacles 0 1, L.sinks 0 1)) =
        some (2, false, false) := by
  constructor <;> decide

/-- C1 (amended): for every lattice state and site, the engine's HOP energy
delta equals `2·(H_new − E) + 2·occupancy_delta + 2·volume_exclusion_delta`,
with `H_new = -(F_dest · σ)`: the two correction terms are multiplied by the
factor of 2 (they are folded into `H_new` before the subtraction), not added
outside it. -/
theorem C1_hop_delta_amended (L : ParticleLattice) (y x : ℕ) :
    RatesManager.compute_hop_delta L y x =
      ((Ext.fin (2 * (-(((RatesManager.compute_interaction_forces L
            (RatesManager.forward_pos L y x).1 (RatesManager.forward_pos L y x).2).1 : ℚ) *
              ((L.particles y x).1 : ℚ) +
            ((RatesManager.compute_interaction_forces L (RatesManager.forward_pos L y x).1
              (RatesManager.forward_pos L y x).2).2 : ℚ) * ((L.particles y x).2 : ℚ)) -
          (RatesManager.compute_energies L y x : ℚ)))).add
        ((Ext.fin 2).mul (RatesManager.occupancy_delta L y x))).add
        ((Ext.fin 2).mul (RatesManager.ve_delta L y x)) := by
  simp only [RatesManager.compute_hop_delta]
  exact ext_two_mul_distrib _ _ _ _

/-- C3 (amended): for every lattice whose sites hold valid orientation vectors
and every `β > 0`, the per-site FLIP, HOP and ROTATE rates are finite and
non-negative; the occupancy singularity (empty source) drives the HOP and
ROTATE rates to exactly `0`, and the volume-exclusion singularity (occupied hop
destination) drives the HOP rate to exactly `0`, so the per-event-type sums
(which cover ROTATE and HOP) only ever add finite non-negative terms.  The
ROTATE_NEG rate is finite at occupied sites but `+∞` at empty sites (see the
counterexample). -/
theorem C3_rates_amended (L : ParticleLattice) (β : ℚ) (hβ : 0 < β)
    (hvalid : ∀ j i : ℕ, RatesManager.isOrientationVec (L.particles j i)) (y x : ℕ) :
    (RatesManager.compute_rates L β .FLIP y x).finiteNonneg = true ∧
      (RatesManager.compute_rates L β .HOP y x).finiteNonneg = true ∧
      (RatesManager.compute_rates L β .ROTATE y x).finiteNonneg = true ∧
      (L.particles y x = (0, 0) →
        RatesManager.compute_rates L β .HOP y x = .zero ∧
          RatesManager.compute_rates L β .ROTATE y x = .zero) ∧
      (L.particles (RatesManager.forward_pos L y x).1 (RatesManager.forward_pos L y x).2 ≠ (0, 0) →
        RatesManager.compute_rates L β .HOP y x = .zero) ∧
      (L.particles y x ≠ (0, 0) →
        (RatesManager.compute_rates L β .ROTATE_NEG y x).finiteNonneg = true) := by
  have hflip : (RatesManager.compute_rates L β .FLIP y x).finiteNonneg = true := by
    simp [RatesManager.compute_rates, RatesManager.compute_delta, Ext.mul, extExp,
      ExpVal.finiteNonneg]
  have hhop : (L.particles y x = (0, 0) ∨
      L.particles (RatesManager.forward_pos L y x).1 (RatesManager.forward_pos L y x).2 ≠ (0, 0) →
        RatesManager.compute_rates L β .HOP y x = .zero) ∧
      (RatesManager.compute_rates L β .HOP y x).finiteNonneg = true := by
    by_cases hsrc : L.particles y x = (0, 0) <;>
      by_cases hdst : L.particles (RatesManager.forward_pos L y x).1
        (RatesManager.forward_pos L y x).2 = (0, 0)
    · have hd : RatesManager.compute_hop_delta L y x = .pinf := by
        rw [RatesManager.compute_hop_delta, occ_empty L y x hsrc, ve_empty_dest L y x hdst]
        norm_num [Ext.add, Ext.sub, Ext.neg, Ext.mul]
      simp [RatesManager.compute_rates, RatesManager.compute_delta, hd,
        negbeta_mul_pinf β hβ, extExp, ExpVal.finiteNonneg]
    · have hd : RatesManager.compute_hop_delta L y x = .pinf := by
        rw [RatesManager.compute_hop_delta, occ_empty L y x hsrc,
          ve_occupied_dest L y x (hvalid _ _) hdst]
        norm_num [Ext.add, Ext.sub, Ext.neg, Ext.mul]
      simp [RatesManager.compute_rates, RatesManager.compute_delta, hd,
        negbeta_mul_pinf β hβ, extExp, ExpVal.finiteNonneg]
    · have hd : RatesManager.compute_hop_delta L y x =
          .fin (2 * (-((RatesManager.compute_interaction_forces L
              (RatesManager.forward_pos L y x).1 (RatesManager.forward_pos L y x).2).1 *
                (L.particles y x).1 +
              (RatesManager.compute_interaction_forces L (RatesManager.forward_pos L y x).1
                (RatesManager.forward_pos L y x).2).2 * (L.particles y x).2) + 1 + 0 -
            RatesManager.compute_energies L y x)) := by
        rw [RatesManager.compute_hop_delta, occ_occupied L y x (hvalid _ _) hsrc,
          ve_empty_dest L y x hdst]
        exact hop_form_fin _ _ _ _
      constructor
      · intro h
        rcases h with h | h
        · exact absurd h hsrc
        · exact absurd hdst h
      · simp [RatesManager.compute_rates, RatesManager.compute_delta, hd, Ext.mul, extExp,
          ExpVal.finiteNonneg]
    · have hd : RatesManager.compute_hop_delta L y x = .pinf := by
        rw [RatesManager.compute_hop_delta, occ_occupied L y x (hvalid _ _) hsrc,
          ve_occupied_dest L y x (hvalid _ _) hdst]
        norm_num [Ext.add, Ext.sub, Ext.neg, Ext.mul]
      simp [RatesManager.compute_rates, RatesManager.compute_delta, hd,
        negbeta_mul_pinf β hβ, extExp, ExpVal.finiteNonneg]
  have hrot : (L.particles y x = (0, 0) → RatesManager.compute_rates L β .ROTATE y x = .zero) ∧
      (RatesManager.compute_rates L β .ROTATE y x).finiteNonneg = true ∧
      (L.particles y x ≠ (0, 0) →
        (RatesManager.compute_rates L β .ROTATE_NEG y x).finiteNonneg = true) := by
    by_cases hsrc : L.particles y x = (0, 0)
    · have hd : RatesManager.compute_rotate_delta L y x = .pinf := by
        rw [RatesManager.compute_rotate_delta, occ_empty L y x hsrc]
        rfl
      refine ⟨fun _ => ?_, ?_, fun h => absurd hsrc h⟩ <;>
        simp [RatesManager.compute_rates, RatesManager.compute_delta, hd,
          negbeta_mul_pinf β hβ, extExp, ExpVal.finiteNonneg]
    · have hd : RatesManager.compute_rotate_delta L y x =
          .fin (2 * (-((RatesManager.compute_interaction_forces L y x).1 *
              (vecMat (L.particles y x) rotation_matrix).1 +
            (RatesManager.compute_interaction_forces L y x).2 *
              (vecMat (L.particles y x) rotation_matrix).2) -
            RatesManager.compute_energies L y x) + 1) := by
        rw [RatesManager.compute_rotate_delta, occ_occupied L y x (hvalid _ _) hsrc]
        simp [Ext.add]
      refine ⟨fun h => absurd h hsrc, ?_, fun _ => ?_⟩ <;>
        simp [RatesManager.compute_rates, RatesManager.compute_delta, hd, Ext.mul, Ext.sub,
          Ext.neg, Ext.add, extExp, ExpVal.finiteNonneg]
  exact ⟨hflip, hhop.2, hrot.2.1, fun h => ⟨hhop.1 (Or.inl h), hrot.1 h⟩,
    fun h => hhop.1 (Or.inr h), hrot.2.2⟩

/-- C4: at every in-bounds site the interaction force computed by the grouped
circular convolution equals the vector sum of the orientation vectors of the
four periodic von Neumann neighbours, componentwise. -/
theorem C4_interaction_forces (L : ParticleLattice) (y x : ℕ)
    (hy : y < L.height) (hx : x < L.width) :
    RatesManager.compute_interaction_forces L y x =
      RatesManager.neighbor_vector_sum L y x :=
  forces_eq_neighbor_sum L y x hy hx

/-- C5: on a fully populated, identically oriented, obstacle-free lattice, the
per-site energy is `-4` everywhere and the per-site FLIP rate is `exp (-16·β)`. -/
theorem C5_uniform_energy_flip (L : ParticleLattice) (β : ℚ) (σ : ℤ × ℤ)
    (hσ : σ = (0, -1) ∨ σ = (0, 1) ∨ σ = (-1, 0) ∨ σ = (1, 0))
    (hfill : ∀ j i, j < L.height → i < L.width → L.particles j i = σ)
    (hobs : ∀ j i, L.obstacles j i = false)
    (y x : ℕ) (hy : y < L.height) (hx : x < L.width) :
    RatesManager.compute_energies L y x = -4 ∧
      RatesManager.compute_rates L β .FLIP y x = .expOf (-(16 * β)) := by
  have hh : 0 < L.height := Nat.lt_of_le_of_lt (Nat.zero_le y) hy
  have hw : 0 < L.width := Nat.lt_of_le_of_lt (Nat.zero_le x) hx
  have hE : RatesManager.compute_energies L y x = -4 := by
    unfold RatesManager.compute_energies
    rw [forces_eq_neighbor_sum L y x hy hx]
    unfold RatesManager.neighbor_vector_sum
    rw [hfill _ x (wrap_lt _ _ hh) hx, hfill _ x (wrap_lt _ _ hh) hx,
      hfill y _ hy (wrap_lt _ _ hw), hfill y _ hy (wrap_lt _ _ hw),
      hfill y x hy hx]
    rcases hσ with h | h | h | h <;> subst h <;> norm_num
  refine ⟨hE, ?_⟩
  simp [RatesManager.compute_rates, RatesManager.compute_delta, hE, Ext.mul, extExp]
  push_cast
  ring

/-- C10: at every in-bounds site, the single-site `rotate(x, y, cw)` and the
batched `rotate_particles(cw, mask)` with the mask selecting exactly `(x, y)`
produce the same orientation vector at `(x, y)`, and the masked batch leaves
every other site's vector unchanged. -/
theorem C10_rotate_refines_batched (L : ParticleLattice) (x y : ℕ)
    (hx : x < L.width) (hy : y < L.height) (cw : Bool) (j i : ℕ)
    (hne : ¬(j = y ∧ i = x)) :
    (L.rotate_particles cw (some fun b a => decide (b = y) && decide (a = x))).particles y x =
        (L.rotate x y cw).particles y x ∧
      (L.rotate_particles cw (some fun b a => decide (b = y) && decide (a = x))).particles j i =
        L.particles j i := by
  constructor
  · simp [ParticleLattice.rotate_particles, ParticleLattice.compute_rotated_particles,
      ParticleLattice.rotate, upd2, vecMat, matVec, smulM, rotation_matrix, boolInt]
    cases cw <;> norm_num <;> constructor <;> ring
  · have hm : (decide (j = y) && decide (i = x)) = false := by
      rcases Decidable.em (j = y) with h1 | h1 <;> rcases Decidable.em (i = x) with h2 | h2 <;>
        simp [h1, h2] <;> exact hne ⟨h1, h2⟩
    simp [ParticleLattice.rotate_particles, ParticleLattice.compute_rotated_particles, hm,
      boolInt]

/-- C2 (counterexample): after `set_sink(0, 1)`, `add_particle(0, 0, DOWN)` and
`move_particle(0, 0)` on a 2×2 lattice, the consumed particle leaves the sink
cell `(0, 1)` in the keyset of `position_to_particle_id` although that cell is
empty; and a direct `remove_particle(0, 0)` after `add_particle(0, 0, UP)`
leaves the emptied cell's key in the map (it touches neither identity map). -/
theorem C2_tracking_counterexample :
    (sinkScenario.map fun L =>
        ((L.position_to_particle_id (0, 1)).isSome, L.is_empty_cell 0 1)) =
      some (true, true) ∧
      (removeScenario.map fun L =>
        ((L.position_to_particle_id (0, 0)).isSome, L.is_empty_cell 0 0)) =
        some (true, true) := by
  constructor <;> decide

/-- C2 (amended): on a lattice of width and height at least 2 whose
position→id keyset equals its occupied-site set, the invariant is preserved by
a successful `add_particle` with a non-EMPTY orientation, by a successful
`move_particle` that reports a non-empty result (i.e. the particle was not
consumed by a sink), and by a successful `transport_particle` along a non-EMPTY
direction that reports a non-empty result (not obstacle-blocked, not consumed).
Sink consumption and `remove_particle` do not preserve it (see the
counterexample). -/
theorem C2_tracking_amended (L : ParticleLattice) (hinv : tracksOccupancy L)
    (hw : 2 ≤ L.width) (hh : 2 ≤ L.height) :
    (∀ x y o L', o ≠ .EMPTY → L.add_particle x y o = some L' → tracksOccupancy L') ∧
      (∀ x y L' r, L.move_particle x y = some (L', r) → r ≠ [] → tracksOccupancy L') ∧
      (∀ x y d L' r, d ≠ .EMPTY → L.transport_particle x y d = some (L', r) → r ≠ [] →
        tracksOccupancy L') :=
  ⟨fun x y o L' hoE hadd => add_preserves_tracking L hinv x y o L' hoE hadd,
    fun x y L' r hmv hr => move_preserves_tracking L hinv hw hh x y L' r hmv hr,
    fun x y d L' r hdE hmv hr => transport_preserves_tracking L hinv hw hh x y d L' r hdE hmv hr⟩

/-- C2 (witness): the amended theorem applied to the empty 2×2 lattice and the
concrete `add_particle(0, 0, UP)` call. -/
theorem C2_tracking_amended_witness : tracksOccupancy c2_added := by
  have h := C2_tracking_amended (mkLattice 2 2)
    (fun a b => by simp [mkLattice, tracksOccupancy]) (by decide) (by decide)
  exact h.1 0 0 .UP c2_added (by decide) rfl

/-- C6: a particle whose own-orientation destination (with periodic wraparound)
is an obstacle is reflected by one `move_particle` call: it stays at its
position, its orientation vector becomes the 180°-rotated one (UP↔DOWN,
LEFT↔RIGHT), and the obstacle cell stays unoccupied. -/
theorem C6_reflect_on_obstacle (L : ParticleLattice) (x y : ℕ) (o : Orientation)
    (hget : L.get_particle_orientation x y = some o)
    (nx ny : ℕ) (htgt : L.get_target_position x y o = some (nx, ny))
    (hobs : L.obstacles ny nx = true)
    (hempty : L.particles ny nx = (0, 0)) :
    L.move_particle x y = some (L.reorient_particle x y (opposite_orientation o), [(x, y)]) ∧
      (L.reorient_particle x y (opposite_orientation o)).particles y x =
        orientation_deltas (opposite_orientation o) ∧
      (L.reorient_particle x y (opposite_orientation o)).particles ny nx = (0, 0) := by
  by_cases hg : (L.coords_ok x y && !(L.is_empty_cell x y)) = true
  case neg =>
    unfold ParticleLattice.get_particle_orientation at hget
    rw [if_neg hg] at hget
    exact absurd hget (by simp)
  have hdelta : delta_to_orientation (L.particles y x) = some o := by
    unfold ParticleLattice.get_particle_orientation at hget
    rwa [if_pos hg] at hget
  have hne : L.particles y x ≠ (0, 0) := by
    intro h0
    have : L.is_empty_cell x y = true := by simp [ParticleLattice.is_empty_cell, h0]
    simp [this] at hg
  have hoE : o ≠ .EMPTY := by
    intro h0
    subst h0
    unfold delta_to_orientation at hdelta
    split_ifs at hdelta <;> simp_all
  have hsrcne : ¬(ny = y ∧ nx = x) := by
    rintro ⟨h1, h2⟩
    subst h1; subst h2
    exact hne hempty
  have hmv : L.move_particle x y =
      some (L.reorient_particle x y (opposite_orientation o), [(x, y)]) := by
    unfold ParticleLattice.move_particle
    rw [if_pos hg, hdelta]
    simp [htgt, hobs, ofValue_opposite o hoE]
  refine ⟨hmv, ?_, ?_⟩
  · simp [ParticleLattice.reorient_particle, upd2]
  · simp [ParticleLattice.reorient_particle, upd2, hsrcne, hempty]

/-- C6 (witness): the concrete 3×3 scenario — an UP particle at `(1, 1)` facing
an obstacle at `(1, 0)`. -/
theorem C6_reflect_on_obstacle_witness :
    obstacleScenario33.move_particle 1 1 =
        some (obstacleScenario33.reorient_particle 1 1 (opposite_orientation .UP), [(1, 1)]) ∧
      (obstacleScenario33.reorient_particle 1 1 (opposite_orientation .UP)).particles 1 1 =
        orientation_deltas (opposite_orientation .UP) ∧
      (obstacleScenario33.reorient_particle 1 1 (opposite_orientation .UP)).particles 0 1 =
        (0, 0) :=
  C6_reflect_on_obstacle obstacleScenario33 1 1 .UP (by decide) 1 0 (by decide)
    (by decide) (by decide)

/-- C3 (witness): the amended theorem applied to the 3×3 one-particle lattice
at the occupied site `(1, 1)` with `β = 1`. -/
theorem C3_rates_amended_witness :
    (0 : ℚ) < 1 ∧
      ((RatesManager.compute_rates oneUP33 1 .FLIP 1 1).finiteNonneg = true ∧
        (RatesManager.compute_rates oneUP33 1 .HOP 1 1).finiteNonneg = true ∧
        (RatesManager.compute_rates oneUP33 1 .ROTATE 1 1).finiteNonneg = true ∧
        (oneUP33.particles 1 1 = (0, 0) →
          RatesManager.compute_rates oneUP33 1 .HOP 1 1 = .zero ∧
            RatesManager.compute_rates oneUP33 1 .ROTATE 1 1 = .zero) ∧
        (oneUP33.particles (RatesManager.forward_pos oneUP33 1 1).1
            (RatesManager.forward_pos oneUP33 1 1).2 ≠ (0, 0) →
          RatesManager.compute_rates oneUP33 1 .HOP 1 1 = .zero) ∧
        (oneUP33.particles 1 1 ≠ (0, 0) →
          (RatesManager.compute_rates oneUP33 1 .ROTATE_NEG 1 1).finiteNonneg = true)) :=
  ⟨by norm_num,
    C3_rates_amended oneUP33 1 (by norm_num)
      (fun j i => by
        by_cases hji : j = 1 ∧ i = 1 <;>
          simp [oneUP33, mkLattice, hji, RatesManager.isOrientationVec]) 1 1⟩

/-- C4 (witness): the theorem applied to the 3×3 one-particle lattice at site
`(1, 1)`. -/
theorem C4_interaction_forces_witness :
    (1 : ℕ) < oneUP33.height ∧ (1 : ℕ) < oneUP33.width ∧
      RatesManager.compute_interaction_forces oneUP33 1 1 =
        RatesManager.neighbor_vector_sum oneUP33 1 1 :=
  ⟨by decide, by decide, C4_interaction_forces oneUP33 1 1 (by decide) (by decide)⟩

/-- C5 (witness): the theorem applied to the fully UP-populated 2×2 lattice with
`β = 1` at site `(0, 0)`. -/
theorem C5_uniform_energy_flip_witness :
    RatesManager.compute_energies uniformUP22 0 0 = -4 ∧
      RatesManager.compute_rates uniformUP22 1 .FLIP 0 0 = .expOf (-(16 * 1)) :=
  C5_uniform_energy_flip uniformUP22 1 (0, -1) (Or.inl rfl) (fun _ _ _ _ => rfl)
    (fun _ _ => rfl) 0 0 (by decide) (by decide)

/-- C10 (witness): the theorem applied to the 3×3 one-particle lattice at site
`(1, 1)` with a clockwise rotation, checking the untouched site `(0, 0)`. -/
theorem C10_rotate_refines_batched_witness :
    (1 : ℕ) < oneUP33.width ∧ (1 : ℕ) < oneUP33.height ∧ ¬((0 : ℕ) = 1 ∧ (0 : ℕ) = 1) ∧
      ((oneUP33.rotate_particles true
            (some fun b a => decide (b = 1) && decide (a = 1))).particles 1 1 =
          (oneUP33.rotate 1 1 true).particles 1 1 ∧
        (oneUP33.rotate_particles true
            (some fun b a => decide (b = 1) && decide (a = 1))).particles 0 0 =
          oneUP33.particles 0 0) :=
  ⟨by decide, by decide, by decide,
    C10_rotate_refines_batched oneUP33 1 1 (by decide) (by decide) true 0 0 (by decide)⟩

end ActiveSpin
